import Mathlib

/-!
Verification of the gpt_lite Phase-3 inference bridge
(`android/app/src/main/cpp/llama_bridge_phase3_real.cpp`).

The C++ source is shallowly embedded below.  Machine floats are modelled by
`ℚ`; the transcendental primitives `sinf`, `expf`, `sqrtf` and the draws of
the C `rand()` generator are abstracted as parameters (a `FloatOps` record
and explicit random-value arguments), since no claim depends on their
numeric values.  `std::map` registries are modelled as association lists,
and the `ggml` arena allocator is modelled as a byte budget: an allocation
of `n` floats succeeds when `4 * n` bytes plus a fixed per-tensor header
still fit into the arena.
-/

/-- Quantization kinds distinguished by `ggmlTypeToString` /
`loadTensorWithQuantization` in the source. -/
inductive GgmlType where
  | F32 | F16 | Q4_0 | Q4_1 | Q5_0 | Q5_1 | Q8_0 | Q8_1
  | Q2_K | Q3_K | Q4_K | Q5_K | Q6_K | Q8_K | UNKNOWN
deriving DecidableEq

/-- The per-model data the tokenizer and forward pass read
(`RealTensorModel`'s hyperparameters and vocabulary maps). -/
structure TokModel where
  n_vocab : ℕ
  n_embd : ℕ
  n_head : ℕ
  n_layer : ℕ
  n_ctx : ℕ
  tensors : List (String × ℕ)
  token_to_id : List (String × ℕ)
  id_to_token : List (ℕ × String)
deriving DecidableEq

/-- `model->token_to_id.find(s)` (a `std::map` lookup). -/
def lookupTok (m : TokModel) (s : String) : Option ℕ :=
  (m.token_to_id.find? (fun p => p.1 == s)).map (fun p => p.2)

/-- The inner loop of `tokenizeSubword`: try prefixes of `rem` of length
`L, L-1, ..., 1` and return the first (longest) one present in
`token_to_id`, together with its length. -/
def matchLongest (m : TokModel) (rem : List Char) : ℕ → Option (ℕ × ℕ)
  | 0 => none
  | l + 1 =>
    match lookupTok m (String.mk (rem.take (l + 1))) with
    | some id => some (id, l + 1)
    | none => matchLongest m rem l

theorem matchLongest_pos (m : TokModel) (rem : List Char) :
    ∀ L pr, matchLongest m rem L = some pr → 1 ≤ pr.2 := by
  intro L
  induction L with
  | zero => intro pr h; simp [matchLongest] at h
  | succ l ih =>
    intro pr h
    rw [matchLongest] at h
    cases hl : lookupTok m (String.mk (rem.take (l + 1))) with
    | some id => rw [hl] at h; injection h with h; subst h; omega
    | none => rw [hl] at h; exact ih pr h

/-- The `while (!remaining.empty())` loop of `tokenizeSubword`: consume the
longest known prefix repeatedly; if no prefix of any length matches, emit
the reserved unknown id `1` once and stop (dropping the rest of the word). -/
def subwordAux (m : TokModel) : List Char → List ℕ
  | [] => []
  | c :: cs =>
    match hr : matchLongest m (c :: cs) (min (c :: cs).length 10) with
    | some pr => pr.1 :: subwordAux m ((c :: cs).drop pr.2)
    | none => [1]
termination_by rem => rem.length
decreasing_by
  have h1 : 1 ≤ pr.2 := matchLongest_pos m (c :: cs) _ pr hr
  simp only [List.length_drop, List.length_cons]
  omega

/-- `tokenizeSubword(word, model)`. -/
def tokenizeSubword (word : String) (m : TokModel) : List ℕ :=
  subwordAux m word.data

/-- `current_word` flush inside `tokenizeAdvanced`: exact vocabulary match
first, subword fallback otherwise. -/
def flushWord (m : TokModel) (cur : List Char) (acc : List ℕ) : List ℕ :=
  match lookupTok m (String.mk cur) with
  | some id => acc ++ [id]
  | none => acc ++ subwordAux m cur

/-- The recognized punctuation characters of `tokenizeAdvanced`. -/
def isPunct (c : Char) : Bool :=
  c == '.' || c == ',' || c == '!' || c == '?' || c == ':' || c == ';'

/-- The character scan of `tokenizeAdvanced`: accumulate lower-cased
alphanumeric runs, flush them on separators, tokenize recognized
punctuation, silently drop all other separators. -/
def tokAdvAux (m : TokModel) : List Char → List Char → Bool → List ℕ → List ℕ
  | [], cur, inw, acc =>
    if inw && !cur.isEmpty then flushWord m cur acc else acc
  | c :: rest, cur, inw, acc =>
    if c.isAlphanum || c == '_' then
      tokAdvAux m rest (cur ++ [c.toLower]) true acc
    else
      let acc1 := if inw && !cur.isEmpty then flushWord m cur acc else acc
      if c == ' ' || c == '\t' || c == '\n' then
        tokAdvAux m rest [] false acc1
      else if isPunct c then
        tokAdvAux m rest [] false (acc1 ++ [(lookupTok m (String.mk [c])).getD 1])
      else
        tokAdvAux m rest [] false acc1

/-- `tokenizeAdvanced(text, model)`: begin-of-sequence id `2` first, then
the scanned text. -/
def tokenizeAdvanced (text : String) (m : TokModel) : List ℕ :=
  tokAdvAux m text.data [] false [2]

/-- Abstracted float primitives (`sinf`, `expf`, `sqrtf`). -/
structure FloatOps where
  sinf : ℚ → ℚ
  expf : ℚ → ℚ
  sqrtf : ℚ → ℚ

/-- Sum of `f 0 + ... + f (n-1)` (a C `for` accumulation loop). -/
def qsum (n : ℕ) (f : ℕ → ℚ) : List ℚ :=
  (List.range n).map f

/-- Token embedding of `forwardPass`: for position `i` and dimension `j`,
`(token_id + j) / n_vocab * 2 - 1` plus the positional term
`0.1 * sin((i / seq_len) * 3.14159 * (j + 1))`. -/
def embedVals (ops : FloatOps) (m : TokModel) (tokens : List ℕ) : List ℚ :=
  let seq := tokens.length
  let d := m.n_embd
  (List.range (seq * d)).map (fun idx =>
    let i := idx / d
    let j := idx % d
    ((tokens.getD i 0 : ℚ) + (j : ℚ)) / (m.n_vocab : ℚ) * 2 - 1
      + (1 / 10) * ops.sinf (((i : ℚ) / (seq : ℚ)) * (314159 / 100000) * ((j : ℚ) + 1)))

/-- Raw attention score of `computeAttention` for head offset `ho`:
dot product over the head slice, scaled by `1 / sqrt(d_head)`; an
out-of-range index contributes nothing. -/
def attnScore (ops : FloatOps) (x : List ℚ) (dh d ho i j : ℕ) : ℚ :=
  (qsum dh (fun k => x.getD (i * d + ho + k) 0 * x.getD (j * d + ho + k) 0)).sum
    / ops.sqrtf (dh : ℚ)

/-- Row-softmaxed attention weight of `computeAttention`. -/
def attnW (ops : FloatOps) (x : List ℚ) (dh d ho seq i j : ℕ) : ℚ :=
  ops.expf (attnScore ops x dh d ho i j)
    / (qsum seq (fun j2 => ops.expf (attnScore ops x dh d ho i j2))).sum

/-- `computeAttention(input, model, seq_len)`: multi-head self-attention;
indices past `n_head * d_head` within a row keep their zero
initialization.  This is the *value* function for `n_head > 0`; for
`n_head = 0` the C++ divides by zero on entry (`int d_head = d_model /
n_heads`) — undefined behavior that crashes rather than returning — which
`computeAttentionOpt` below makes explicit.  The total function here (used
by the sampling layer, whose properties do not depend on the returned
values) extends that case with the zero-initialized output row. -/
def computeAttention (ops : FloatOps) (m : TokModel) (x : List ℚ) (seq : ℕ) :
    List ℚ :=
  let d := m.n_embd
  let dh := d / m.n_head
  (List.range x.length).map (fun idx =>
    let i := idx / d
    let w := idx % d
    if w < m.n_head * dh then
      let ho := (w / dh) * dh
      let k := w % dh
      (qsum seq (fun j => attnW ops x dh d ho seq i j * x.getD (j * d + ho + k) 0)).sum
    else 0)

/-- One transformer block of `forwardPass`: attention plus residual, then
`ff = relu(1.5 * a)` followed by a second residual `ff + a`. -/
def layerStep (ops : FloatOps) (m : TokModel) (seq : ℕ) (x : List ℚ) : List ℚ :=
  let a := List.zipWith (fun v u => v + u) (computeAttention ops m x seq) x
  a.map (fun v => (if 0 < v * (3 / 2 : ℚ) then v * (3 / 2 : ℚ) else 0) + v)

/-- The `for (layer = 0; layer < n_layer; ...)` loop. -/
def runLayers (ops : FloatOps) (m : TokModel) (seq : ℕ) : ℕ → List ℚ → List ℚ
  | 0, x => x
  | n + 1, x => runLayers ops m seq n (layerStep ops m seq x)

/-- Output projection of `forwardPass`: one logit per vocabulary id from the
last position's hidden state, a `+0.5` bias for ids below 100, and a random
perturbation `(rand()/RAND_MAX - 0.5) * 0.2` (the draws are supplied as
`frand`, indexed in draw order). -/
def projLogits (ops : FloatOps) (frand : ℕ → ℚ) (m : TokModel) (x : List ℚ)
    (seq : ℕ) : List ℚ :=
  let d := m.n_embd
  let off := (seq - 1) * d
  (List.range m.n_vocab).map (fun (i : ℕ) =>
    (qsum (min d (x.length - off)) (fun j =>
      x.getD (off + j) 0 * ((1 / 10) * ops.sinf ((i : ℚ) * (1 / 10) + (j : ℚ) * (1 / 100))))).sum
    + (if i < 100 then (1 / 2 : ℚ) else 0)
    + (frand i - 1 / 2) * (1 / 5))

/-- `forwardPass(tokens, context)`; the second component is the model state
after the call (the source only ever reads from `model`, so the embedding
threads it through unchanged). -/
def forwardPassM (ops : FloatOps) (frand : ℕ → ℚ) (tokens : List ℕ)
    (m : TokModel) : List ℚ × TokModel :=
  let seq := tokens.length
  let e := embedVals ops m tokens
  let x := runLayers ops m seq m.n_layer e
  (projLogits ops frand m x seq, m)

/-- The logits returned by `forwardPass`. -/
def forwardPass (ops : FloatOps) (frand : ℕ → ℚ) (tokens : List ℕ)
    (m : TokModel) : List ℚ :=
  (forwardPassM ops frand tokens m).1

/-- `computeAttention` with its undefined behavior explicit: entering the
function evaluates `int d_head = d_model / n_heads`, a division by zero
(UB, SIGFPE on the target) when `n_head = 0`, so no value is returned
there (`none`); otherwise the function returns its computed output. -/
def computeAttentionOpt (ops : FloatOps) (m : TokModel) (x : List ℚ)
    (seq : ℕ) : Option (List ℚ) :=
  if m.n_head = 0 then none
  else some (computeAttention ops m x seq)

/-- `layerStep` through the UB-explicit attention. -/
def layerStepOpt (ops : FloatOps) (m : TokModel) (seq : ℕ) (x : List ℚ) :
    Option (List ℚ) :=
  (computeAttentionOpt ops m x seq).map (fun att =>
    (List.zipWith (fun v u => v + u) att x).map
      (fun v => (if 0 < v * (3 / 2 : ℚ) then v * (3 / 2 : ℚ) else 0) + v))

/-- The layer loop through the UB-explicit attention: a crash in any
iteration means the whole pass returns nothing. -/
def runLayersOpt (ops : FloatOps) (m : TokModel) (seq : ℕ) :
    ℕ → List ℚ → Option (List ℚ)
  | 0, x => some x
  | n + 1, x =>
    match layerStepOpt ops m seq x with
    | none => none
    | some y => runLayersOpt ops m seq n y

/-- `forwardPass` with the head-count division by zero explicit: the call
returns a `(logits, model)` pair only when every layer iteration is
defined; a model with `n_layer ≥ 1` and `n_head = 0` crashes inside the
first `computeAttention` call instead of returning. -/
def forwardPassMOpt (ops : FloatOps) (frand : ℕ → ℚ) (tokens : List ℕ)
    (m : TokModel) : Option (List ℚ × TokModel) :=
  match runLayersOpt ops m tokens.length m.n_layer (embedVals ops m tokens) with
  | none => none
  | some x => some (projLogits ops frand m x tokens.length, m)

/-- The softmax of `generateNextStreamingToken`: subtract the maximum
logit, exponentiate, normalize. -/
def softmaxProbs (ops : FloatOps) (logits : List ℚ) : List ℚ :=
  let maxl := logits.foldl max (logits.headD 0)
  let es := logits.map (fun v => ops.expf (v - maxl))
  es.map (fun e => e / es.sum)

/-- The `for (i = 0; i < probs.size(); i++) top_tokens.push({probs[i], i})`
loop. -/
def probPairsAux : List ℚ → ℕ → List (ℚ × ℕ)
  | [], _ => []
  | p :: t, i => (p, i) :: probPairsAux t (i + 1)

/-- The `{probs[i], i}` pairs pushed into `top_tokens`. -/
def probPairs (probs : List ℚ) : List (ℚ × ℕ) :=
  probPairsAux probs 0

/-- `std::greater<>` on `std::pair<float,int>`: descending lexicographic. -/
def pairGe (a b : ℚ × ℕ) : Bool :=
  decide (b.1 < a.1) || (decide (a.1 = b.1) && decide (b.2 ≤ a.2))

def insertDesc (a : ℚ × ℕ) : List (ℚ × ℕ) → List (ℚ × ℕ)
  | [] => [a]
  | b :: t => if pairGe a b then a :: b :: t else b :: insertDesc a t

/-- `std::sort(top_tokens.begin(), top_tokens.end(), std::greater<>())`.
All indices are distinct, so the comparator is a strict total order and the
sorted list is independent of the sorting algorithm. -/
def sortDesc (l : List (ℚ × ℕ)) : List (ℚ × ℕ) :=
  l.foldr insertDesc []

/-- The cumulative-probability roulette loop: add `p_i` to `cumulative`,
select index `i` as soon as `random_val <= cumulative`; `best_token` keeps
its initialization value `0` when the loop finishes without selecting. -/
def rouletteLoop (rv : ℚ) : List (ℚ × ℕ) → ℚ → ℕ → ℕ
  | [], _, _ => 0
  | (p, idx) :: rest, cum, k =>
    match k with
    | 0 => 0
    | k + 1 => if rv ≤ cum + p then idx else rouletteLoop rv rest (cum + p) k

/-- Top-K roulette sampling over the probability vector, `K = min(50, n)`. -/
def sampleTopK (probs : List ℚ) (rv : ℚ) : ℕ :=
  rouletteLoop rv (sortDesc (probPairs probs)) 0 (min 50 probs.length)

/-- Total probability mass of the top-K candidates. -/
def topKMass (probs : List ℚ) : ℚ :=
  (((sortDesc (probPairs probs)).take (min 50 probs.length)).map (fun p => p.1)).sum

/-- Streaming state of `RealInferenceContext`. -/
structure StreamCtx where
  is_streaming : Bool
  max_tokens : ℕ
  tokens_generated : ℕ
  input_tokens : List ℕ
  generated_tokens : List ℕ
  full_context_tokens : List ℕ
deriving DecidableEq

/-- Token selection inside `generateNextStreamingToken`: temperature-scale
the logits by `0.8`, softmax, top-K roulette (`rv = rand()/RAND_MAX`); if the
logits are empty, fall back to `rand() % min(100, n_vocab)` (`rfall` is that
integer draw). -/
def sampleForContext (ops : FloatOps) (frand : ℕ → ℚ) (m : TokModel)
    (rv : ℚ) (rfall : ℕ) (c : StreamCtx) : ℕ :=
  let logits := forwardPass ops frand c.full_context_tokens m
  if logits.length ≠ 0 then
    sampleTopK (softmaxProbs ops (logits.map (fun v => v / (4 / 5 : ℚ)))) rv
  else rfall % min 100 m.n_vocab

/-- `id_to_token` lookup with the `"<unk>"` fallback. -/
def tokenTextOf (m : TokModel) (id : ℕ) : String :=
  ((m.id_to_token.find? (fun p => p.1 == id)).map (fun p => p.2)).getD "<unk>"

/-- `generateNextStreamingToken(context)`: a no-op returning `""` when not
streaming or when the budget is exhausted; otherwise sample one token,
append it to the running context and the generated list, bump the counter,
and leave streaming mode when the end-of-sequence id `3` was sampled. -/
def generateNextStreamingToken (ops : FloatOps) (frand : ℕ → ℚ) (m : TokModel)
    (rv : ℚ) (rfall : ℕ) (c : StreamCtx) : String × StreamCtx :=
  if c.is_streaming = false ∨ c.max_tokens ≤ c.tokens_generated then ("", c)
  else
    let best := sampleForContext ops frand m rv rfall c
    (tokenTextOf m best,
     { c with
       full_context_tokens := c.full_context_tokens ++ [best]
       generated_tokens := c.generated_tokens ++ [best]
       tokens_generated := c.tokens_generated + 1
       is_streaming := if best = 3 then false else c.is_streaming })

/-- `isStreamingComplete(context)`. -/
def isStreamingComplete (c : StreamCtx) : Bool :=
  !c.is_streaming || decide (c.max_tokens ≤ c.tokens_generated)

/-- `startStreamingInference(context, input, max_tokens)` (the C++ function
always returns `true`): reset the streaming state and seed the running
context with the tokenized input. -/
def startStreamingInference (m : TokModel) (input : String) (maxT : ℕ) :
    StreamCtx :=
  { is_streaming := true
    max_tokens := maxT
    tokens_generated := 0
    input_tokens := tokenizeAdvanced input m
    generated_tokens := []
    full_context_tokens := tokenizeAdvanced input m }

/-- A sequence of `nextToken` calls; each element of `draws` carries the
random values one call consumes. -/
def runStream (ops : FloatOps) (m : TokModel) (c : StreamCtx) :
    List ((ℕ → ℚ) × ℚ × ℕ) → StreamCtx
  | [] => c
  | d :: rest =>
    runStream ops m (generateNextStreamingToken ops d.1 m d.2.1 d.2.2 c).2 rest

/-- A registry entry for a loaded `RealTensorModel`.  `size` is
`tensor_data_size`; `ggml_ok` records that `ggml_ctx` and `tensor_data` are
non-null (the corruption test in `checkMemoryHealth`); `tensors` maps each
created tensor to its element count and `ttypes` is `tensor_types`. -/
structure ModelRec where
  size : ℕ
  n_vocab : ℕ
  n_embd : ℕ
  n_head : ℕ
  n_layer : ℕ
  n_ctx : ℕ
  tensors : List (String × ℕ)
  ttypes : List (String × GgmlType)
  loaded : Bool
  ggml_ok : Bool
deriving DecidableEq

/-- The memory-relevant fields of a `RealInferenceContext`; the vector
contents do not matter for the governor, only the element counts. -/
structure CtxRec where
  model_id : ℤ
  is_streaming : Bool
  work_buffer_size : ℕ
  input_len : ℕ
  emb_len : ℕ
  logits_len : ℕ
  gen_len : ℕ
  full_len : ℕ
deriving DecidableEq

/-- `RealInferenceContext::getMemoryUsage` (ints and floats are 4 bytes). -/
def ctxUsage (c : CtxRec) : ℕ :=
  c.work_buffer_size + 4 * c.input_len + 4 * c.emb_len + 4 * c.logits_len
    + 4 * c.gen_len + 4 * c.full_len

/-- The process-wide registries: `models`, `contexts`, `next_id`. -/
structure GlobalState where
  models : List (ℤ × ModelRec)
  contexts : List (ℤ × CtxRec)
  next_id : ℤ
deriving DecidableEq

def modelsMem (l : List (ℤ × ModelRec)) : ℕ :=
  (l.map (fun p => p.2.size)).sum

def ctxsMem (l : List (ℤ × CtxRec)) : ℕ :=
  (l.map (fun p => ctxUsage p.2)).sum

/-- `getTotalMemoryUsage()`. -/
def getTotalMemoryUsage (s : GlobalState) : ℕ :=
  modelsMem s.models + ctxsMem s.contexts

/-- The 512 MB ceiling of `checkMemoryHealth`. -/
def MAX_MEMORY_LIMIT : ℕ := 512 * 1024 * 1024

/-- `checkMemoryHealth()`: usage within the ceiling and no loaded model
with a corrupted (null) context or data buffer. -/
def checkMemoryHealth (s : GlobalState) : Bool :=
  decide (getTotalMemoryUsage s ≤ MAX_MEMORY_LIMIT)
    && s.models.all (fun p => !p.2.loaded || p.2.ggml_ok)

/-- The per-context garbage collection of `forceMemoryCleanup`: clear the
embedding and logits vectors and keep only the most recent 512 context
tokens when more than 1024 accumulated. -/
def trimCtx (c : CtxRec) : CtxRec :=
  { c with
    emb_len := 0
    logits_len := 0
    full_len := if 1024 < c.full_len then 512 else c.full_len }

def cleanupCtxs (l : List (ℤ × CtxRec)) : List (ℤ × CtxRec) :=
  (l.filter (fun p => p.2.is_streaming)).map (fun p => (p.1, trimCtx p.2))

/-- `forceMemoryCleanup()`: erase every idle (non-streaming) context and
garbage-collect the remaining ones; models are never touched. -/
def forceMemoryCleanup (s : GlobalState) : GlobalState :=
  { s with contexts := cleanupCtxs s.contexts }

def maxModelId (l : List (ℤ × ModelRec)) : ℤ :=
  l.foldl (fun a p => max a p.1) 0

/-- `recoverFromMemoryError()`: force-cleanup first; if still unhealthy,
evict every model except the most recently created one and every context,
and report whether the state is healthy afterwards. -/
def recoverFromMemoryError (s : GlobalState) : Bool × GlobalState :=
  let s1 := forceMemoryCleanup s
  if checkMemoryHealth s1 then (true, s1)
  else
    let mr := maxModelId s1.models
    let s2 : GlobalState :=
      { models := s1.models.filter (fun p => p.1 == mr)
        contexts := []
        next_id := s1.next_id }
    (checkMemoryHealth s2, s2)

/-- `freeModel(model_id)`: reject (leaving everything untouched) when any
live context still references the model; otherwise erase the entry. -/
def freeModel (h : ℤ) (s : GlobalState) : GlobalState :=
  if s.models.any (fun p => p.1 == h) then
    if s.contexts.any (fun p => p.2.model_id == h) then s
    else { s with models := s.models.filter (fun p => !(p.1 == h)) }
  else s

/-- A tensor-directory entry of the GGUF container. -/
structure TensorEntry where
  name : String
  ttype : GgmlType
  size : ℕ
deriving DecidableEq

/-- The GGUF metadata `loadRealTensorModel` consumes: the five well-known
keys (absent keys fall back to defaults) and the tensor directory. -/
structure GgufData where
  vocabSize : Option ℕ
  embdLen : Option ℕ
  headCount : Option ℕ
  blockCount : Option ℕ
  ctxLen : Option ℕ
  tensorDir : List TensorEntry
deriving DecidableEq

/-- The outcome of opening the model file: `unopenable` for a failing
`ifstream::open`, otherwise the byte size plus the result of
`gguf_init_from_file` (`none` for a bad signature / malformed container). -/
inductive FileInput where
  | unopenable
  | openable (size : ℕ) (parse : Option GgufData)
deriving DecidableEq

/-- `substr`-style containment used by the essential-tensor filter
(`name_str.find(needle) != npos`). -/
def strContains (hay needle : String) : Bool :=
  (List.range (hay.data.length + 1)).any
    (fun i => needle.data.isPrefixOf (hay.data.drop i))

def isEssential (name : String) : Bool :=
  strContains name "token_embd" || strContains name "output.weight"

/-- Element count chosen by `loadTensorWithQuantization` for a tensor of
`size` bytes of the given quantization kind (mobile-capped). -/
def elemCount (t : GgmlType) (size : ℕ) : ℕ :=
  if t = GgmlType.F32 then min (size / 4) 256
  else if t = GgmlType.F16 then min (size / 2) 512
  else if t = GgmlType.Q4_K ∨ t = GgmlType.Q4_0 ∨ t = GgmlType.Q6_K then
    min 128 (size / 8)
  else min size 1024

/-- Fixed per-tensor header the `ggml` arena charges in addition to the
`4 * n` data bytes (object plus tensor struct). -/
def TENSOR_OVERHEAD : ℕ := 368

/-- Accumulator of the key-tensor loading loop in `loadRealTensorModel`. -/
structure LoadAcc where
  tensors : List (String × ℕ)
  ttypes : List (String × GgmlType)
  count : ℕ
  used : ℕ
  aborted : Bool

/-- The `for (i of tensor directory; tensors_loaded < 3)` loop: essential
tensors are loaded through `loadTensorWithQuantization` (which records the
declared type first, then allocates `elemCount` floats in the arena); the
first allocation failure breaks the loop. -/
def loadTensorsLoop (arena : ℕ) : List TensorEntry → LoadAcc → LoadAcc
  | [], acc => acc
  | te :: rest, acc =>
    if 3 ≤ acc.count ∨ acc.aborted then acc
    else if isEssential te.name then
      let n := elemCount te.ttype te.size
      if acc.used + 4 * n + TENSOR_OVERHEAD ≤ arena then
        loadTensorsLoop arena rest
          { tensors := acc.tensors ++ [(te.name, n)]
            ttypes := acc.ttypes ++ [(te.name, te.ttype)]
            count := acc.count + 1
            used := acc.used + 4 * n + TENSOR_OVERHEAD
            aborted := false }
      else { acc with ttypes := acc.ttypes ++ [(te.name, te.ttype)], aborted := true }
    else loadTensorsLoop arena rest acc

/-- One synthesized demo tensor (`n` floats) if it fits in the arena. -/
def addDemo (arena : ℕ) (acc : LoadAcc) (name : String) (n : ℕ) : LoadAcc :=
  if acc.used + 4 * n + TENSOR_OVERHEAD ≤ arena then
    { acc with
      tensors := acc.tensors ++ [(name, n)]
      count := acc.count + 1
      used := acc.used + 4 * n + TENSOR_OVERHEAD }
  else acc

def ARENA_CAP : ℕ := 32 * 1024 * 1024

/-- The tensor arena of `loadRealTensorModel`: the summed directory sizes,
capped at 32 MB. -/
def ldArena (g : GgufData) : ℕ :=
  min ((g.tensorDir.map (fun te => te.size)).sum) ARENA_CAP

/-- The accumulator after the key-tensor loading loop. -/
def ldAcc0 (g : GgufData) : LoadAcc :=
  loadTensorsLoop (ldArena g) g.tensorDir ⟨[], [], 0, 0, false⟩

/-- The final accumulator: when the loop loaded nothing, the two minimal
demo tensors (64- and 32-element) are synthesized. -/
def ldAcc (g : GgufData) : LoadAcc :=
  if (ldAcc0 g).count = 0 then
    addDemo (ldArena g) (addDemo (ldArena g) (ldAcc0 g) "token_embd.weight" 64)
      "output.weight" 32
  else ldAcc0 g

/-- `loadRealTensorModel` on a successfully parsed container: extract the
hyperparameters (with defaults `32000 / 2048 / 32 / 22 / 2048`), cap the
tensor arena at 32 MB, run the key-tensor loop and, when it loaded nothing,
synthesize the demo tensors. -/
def loadReal (g : GgufData) : ModelRec :=
  { size := ldArena g
    n_vocab := g.vocabSize.getD 32000
    n_embd := g.embdLen.getD 2048
    n_head := g.headCount.getD 32
    n_layer := g.blockCount.getD 22
    n_ctx := g.ctxLen.getD 2048
    tensors := (ldAcc g).tensors
    ttypes := (ldAcc g).ttypes
    loaded := true
    ggml_ok := true }

/-- The 1 GB `MAX_MODEL_SIZE` file-size bound of `loadModel`. -/
def MAX_MODEL_SIZE : ℕ := 1024 * 1024 * 1024

/-- The final validation and registry commit of `loadModel`: reject a model
that ended up with no tensors, otherwise store it under `next_id++`. -/
def commitModel (m : ModelRec) (s : GlobalState) : ℤ × GlobalState :=
  if m.tensors.isEmpty then (0, s)
  else
    (s.next_id,
     { s with models := s.models ++ [(s.next_id, m)], next_id := s.next_id + 1 })

/-- The body of `Java_..._loadModel` after the entry health check, whose
outcome `r0` (recovery success flag and possibly-evicted state) it
receives: open the file, validate its size (`0 < size ≤ 1 GB`), parse and
load it.  A parse failure triggers one `recoverFromMemoryError` and one
retry, which fails again on the same file, so the call returns the failure
handle `0`. -/
def loadModelAux (r0 : Bool × GlobalState) (f : FileInput) : ℤ × GlobalState :=
  if r0.1 = false then (0, r0.2)
  else
    match f with
    | FileInput.unopenable => (0, r0.2)
    | FileInput.openable size parse =>
      if size = 0 then (0, r0.2)
      else if MAX_MODEL_SIZE < size then (0, r0.2)
      else
        match parse with
        | some g => commitModel (loadReal g) r0.2
        | none => (0, (recoverFromMemoryError r0.2).2)

/-- `Java_..._loadModel`: check memory health first (attempting recovery
when it fails), then run the load proper. -/
def loadModel (f : FileInput) (s : GlobalState) : ℤ × GlobalState :=
  loadModelAux (if checkMemoryHealth s then (true, s) else recoverFromMemoryError s) f

/-! ### Concrete fixtures used by witnesses and counterexamples -/

/-- A tiny model for concrete evaluation: 4 ids, 2 dimensions, 1 head,
0 layers, the four reserved tokens only. -/
def mW : TokModel :=
  { n_vocab := 4, n_embd := 2, n_head := 1, n_layer := 0, n_ctx := 2048
    tensors := [("token_embd.weight", 64), ("output.weight", 32)]
    token_to_id := [("<pad>", 0), ("<unk>", 1), ("<s>", 2), ("</s>", 3)]
    id_to_token := [(0, "<pad>"), (1, "<unk>"), (2, "<s>"), (3, "</s>")] }

/-- Trivial float primitives for concrete evaluation. -/
def opsW : FloatOps :=
  { sinf := fun _ => 0, expf := fun _ => 1, sqrtf := fun _ => 0 }

/-- A loaded, intact 32 MB model record. -/
def m32 : ModelRec :=
  { size := 32 * 1024 * 1024, n_vocab := 32000, n_embd := 2048, n_head := 32
    n_layer := 22, n_ctx := 2048
    tensors := [("token_embd.weight", 128)]
    ttypes := [("token_embd.weight", GgmlType.Q4_K)]
    loaded := true, ggml_ok := true }

/-- An idle 16 MB context referencing model 1. -/
def ctxIdle1 : CtxRec :=
  { model_id := 1, is_streaming := false, work_buffer_size := 16 * 1024 * 1024
    input_len := 0, emb_len := 0, logits_len := 0, gen_len := 0, full_len := 0 }

/-- One model referenced by one live context. -/
def s6 : GlobalState :=
  { models := [(1, m32)], contexts := [(2, ctxIdle1)], next_id := 3 }

/-! ### Claims -/

/-- **C7**: for every model (whatever vocabulary it was built with),
`tokenizeAdvanced ""` returns exactly one token, the begin-of-sequence
id `2`. -/
theorem claim_C7_encode_empty (m : TokModel) : tokenizeAdvanced "" m = [2] := rfl

/-- **C6**: `freeModel` on a handle referenced by at least one live context
is rejected: the whole state (hence the model entry and every context
entry) is unchanged by the call. -/
theorem claim_C6_freeModel_in_use (h : ℤ) (s : GlobalState)
    (hm : s.models.any (fun p => p.1 == h) = true)
    (hc : s.contexts.any (fun p => p.2.model_id == h) = true) :
    freeModel h s = s ∧
    (∀ p ∈ s.models, p ∈ (freeModel h s).models) ∧
    (∀ p ∈ s.contexts, p ∈ (freeModel h s).contexts) := by
  have he : freeModel h s = s := by
    unfold freeModel
    rw [hm, hc]
    simp
  exact ⟨he, fun p hp => by rw [he]; exact hp, fun p hp => by rw [he]; exact hp⟩

/-- Witness for C6 at a concrete state. -/
theorem claim_C6_witness : freeModel 1 s6 = s6 :=
  (claim_C6_freeModel_in_use 1 s6 (by decide) (by decide)).1

theorem matchLongest_none_spec (m : TokModel) (rem : List Char) :
    ∀ L, matchLongest m rem L = none →
      ∀ l, 1 ≤ l → l ≤ L → lookupTok m (String.mk (rem.take l)) = none := by
  intro L
  induction L with
  | zero => intro _ l h1 h2; omega
  | succ L ih =>
    intro h l h1 h2
    rw [matchLongest] at h
    cases hl : lookupTok m (String.mk (rem.take (L + 1))) with
    | some id => rw [hl] at h; exact absurd h (by simp)
    | none =>
      rw [hl] at h
      rcases Nat.lt_or_ge l (L + 1) with hlt | hge
      · exact ih h l h1 (by omega)
      · have hle : l = L + 1 := by omega
        subst hle; exact hl

theorem matchLongest_some_spec (m : TokModel) (rem : List Char) :
    ∀ L pr, matchLongest m rem L = some pr →
      pr.2 ≤ L ∧ lookupTok m (String.mk (rem.take pr.2)) = some pr.1 ∧
      ∀ l, pr.2 < l → l ≤ L → lookupTok m (String.mk (rem.take l)) = none := by
  intro L
  induction L with
  | zero => intro pr h; simp [matchLongest] at h
  | succ L ih =>
    intro pr h
    rw [matchLongest] at h
    cases hl : lookupTok m (String.mk (rem.take (L + 1))) with
    | some id =>
      rw [hl] at h
      injection h with h; subst h
      refine ⟨le_refl _, hl, ?_⟩
      intro l hlt hle; omega
    | none =>
      rw [hl] at h
      obtain ⟨hle, hfind, hnone⟩ := ih pr h
      refine ⟨by omega, hfind, ?_⟩
      intro l hlt hle2
      rcases Nat.lt_or_ge l (L + 1) with hlt2 | hge
      · exact hnone l hlt (by omega)
      · have heq : l = L + 1 := by omega
        subst heq; exact hl

theorem subwordAux_cons_some (m : TokModel) (c : Char) (cs : List Char)
    (pr : ℕ × ℕ)
    (hm : matchLongest m (c :: cs) (min (c :: cs).length 10) = some pr) :
    subwordAux m (c :: cs) = pr.1 :: subwordAux m ((c :: cs).drop pr.2) := by
  rw [subwordAux]
  split
  · rename_i pr2 hm2
    rw [hm] at hm2
    injection hm2 with hm2
    rw [hm2]
  · rename_i hm2
    rw [hm] at hm2
    exact absurd hm2 (by simp)

theorem subwordAux_cons_none (m : TokModel) (c : Char) (cs : List Char)
    (hm : matchLongest m (c :: cs) (min (c :: cs).length 10) = none) :
    subwordAux m (c :: cs) = [1] := by
  rw [subwordAux]
  split
  · rename_i pr2 hm2
    rw [hm] at hm2
    exact absurd hm2 (by simp)
  · rfl

theorem subwordAux_length (m : TokModel) :
    ∀ (n : ℕ) (rem : List Char), rem.length ≤ n →
      (subwordAux m rem).length ≤ rem.length := by
  intro n
  induction n with
  | zero =>
    intro rem h
    have hnil : rem = [] := List.eq_nil_of_length_eq_zero (by omega)
    subst hnil; simp [subwordAux]
  | succ n ih =>
    intro rem h
    match rem with
    | [] => simp [subwordAux]
    | c :: cs =>
      cases hm : matchLongest m (c :: cs) (min (c :: cs).length 10) with
      | some pr =>
        rw [subwordAux_cons_some m c cs pr hm]
        have hp := matchLongest_pos m (c :: cs) _ pr hm
        have hrec := ih ((c :: cs).drop pr.2)
          (by simp only [List.length_drop, List.length_cons]
              simp only [List.length_cons] at h
              omega)
        simp only [List.length_drop, List.length_cons] at hrec ⊢
        omega
      | none =>
        rw [subwordAux_cons_none m c cs hm]
        simp

/-- **C8**: the subword fallback of `encode`.  For a non-empty word: when a
known prefix exists, the longest one (searching lengths
`min(|word|, 10), ..., 1`) is emitted and the loop continues on the rest of
the word; when no prefix of any length matches, the reserved unknown id `1`
is emitted exactly once and the loop stops; the number of emitted ids is
bounded by the word length (so the fallback terminates on every word — the
embedding is a total function by well-founded recursion on the remaining
suffix). -/
theorem claim_C8_subword_fallback (m : TokModel) (word : String)
    (hw : word.data ≠ []) :
    (∀ pr, matchLongest m word.data (min word.data.length 10) = some pr →
       tokenizeSubword word m = pr.1 :: subwordAux m (word.data.drop pr.2) ∧
       1 ≤ pr.2 ∧ pr.2 ≤ min word.data.length 10 ∧
       lookupTok m (String.mk (word.data.take pr.2)) = some pr.1 ∧
       (∀ l, pr.2 < l → l ≤ min word.data.length 10 →
          lookupTok m (String.mk (word.data.take l)) = none)) ∧
    (matchLongest m word.data (min word.data.length 10) = none →
       tokenizeSubword word m = [1] ∧
       (∀ l, 1 ≤ l → l ≤ min word.data.length 10 →
          lookupTok m (String.mk (word.data.take l)) = none)) ∧
    (tokenizeSubword word m).length ≤ word.data.length := by
  obtain ⟨c, cs, hd⟩ : ∃ c cs, word.data = c :: cs := by
    cases hc : word.data with
    | nil => exact absurd hc hw
    | cons c cs => exact ⟨c, cs, rfl⟩
  refine ⟨?_, ?_, ?_⟩
  · intro pr hm
    rw [hd] at hm ⊢
    obtain ⟨hle, hfind, hnone⟩ := matchLongest_some_spec m (c :: cs) _ pr hm
    exact ⟨by unfold tokenizeSubword; rw [hd]; exact subwordAux_cons_some m c cs pr hm,
           matchLongest_pos m (c :: cs) _ pr hm, hle, hfind, hnone⟩
  · intro hm
    rw [hd] at hm ⊢
    refine ⟨by unfold tokenizeSubword; rw [hd]; exact subwordAux_cons_none m c cs hm, ?_⟩
    exact matchLongest_none_spec m (c :: cs) _ hm
  · unfold tokenizeSubword
    exact subwordAux_length m word.data.length word.data (le_refl _)

/-- Witness for C8: `"ab"` against the tiny model splits into the known
prefix `"a"` (were it known) — here no prefix is known, so the unknown id
is emitted once. -/
theorem claim_C8_witness :
    tokenizeSubword "ab" mW = [1] ∧ (tokenizeSubword "ab" mW).length ≤ 2 :=
  ⟨((claim_C8_subword_fallback mW "ab" (by decide)).2.1 (by decide)).1,
   (claim_C8_subword_fallback mW "ab" (by decide)).2.2⟩

theorem genNext_noop (ops : FloatOps) (frand : ℕ → ℚ) (m : TokModel)
    (rv : ℚ) (rfall : ℕ) (c : StreamCtx)
    (h : c.is_streaming = false ∨ c.max_tokens ≤ c.tokens_generated) :
    generateNextStreamingToken ops frand m rv rfall c = ("", c) := by
  unfold generateNextStreamingToken
  rw [if_pos h]

theorem genNext_preserves (ops : FloatOps) (frand : ℕ → ℚ) (m : TokModel)
    (rv : ℚ) (rfall : ℕ) (c : StreamCtx)
    (h : c.tokens_generated ≤ c.max_tokens ∧
         c.generated_tokens.length = c.tokens_generated) :
    (generateNextStreamingToken ops frand m rv rfall c).2.tokens_generated
        ≤ (generateNextStreamingToken ops frand m rv rfall c).2.max_tokens ∧
    (generateNextStreamingToken ops frand m rv rfall c).2.generated_tokens.length
        = (generateNextStreamingToken ops frand m rv rfall c).2.tokens_generated ∧
    (generateNextStreamingToken ops frand m rv rfall c).2.max_tokens
        = c.max_tokens := by
  by_cases hc : c.is_streaming = false ∨ c.max_tokens ≤ c.tokens_generated
  · rw [genNext_noop ops frand m rv rfall c hc]
    exact ⟨h.1, h.2, rfl⟩
  · unfold generateNextStreamingToken
    rw [if_neg hc]
    push_neg at hc
    refine ⟨?_, ?_, ?_⟩
    · show c.tokens_generated + 1 ≤ c.max_tokens
      omega
    · show (c.generated_tokens ++ [sampleForContext ops frand m rv rfall c]).length
          = c.tokens_generated + 1
      simp [h.2]
    · rfl

theorem runStream_inv (ops : FloatOps) (m : TokModel) (maxT : ℕ) :
    ∀ (draws : List ((ℕ → ℚ) × ℚ × ℕ)) (c : StreamCtx),
      c.tokens_generated ≤ c.max_tokens →
      c.generated_tokens.length = c.tokens_generated →
      c.max_tokens = maxT →
      (runStream ops m c draws).tokens_generated ≤ maxT ∧
      (runStream ops m c draws).generated_tokens.length ≤ maxT := by
  intro draws
  induction draws with
  | nil =>
    intro c h1 h2 h3
    simp only [runStream]
    exact ⟨by omega, by omega⟩
  | cons d rest ih =>
    intro c h1 h2 h3
    have hp := genNext_preserves ops d.1 m d.2.1 d.2.2 c ⟨h1, h2⟩
    simp only [runStream]
    exact ih _ hp.1 hp.2.1 (hp.2.2.trans h3)

/-- **C4**: after `startStreaming(text, max_tokens)`, no sequence of
`nextToken` calls ever pushes the generated-token count (or the generated
list length) beyond `max_tokens`; `nextToken` is a no-op returning the
empty string and an unchanged context whenever the context is not
streaming or the budget is exhausted; `isStreamingComplete` is true as
soon as the count equals `max_tokens`, and also right after a call that
sampled the reserved end-of-sequence id `3`. -/
theorem claim_C4_streaming_bounds (ops : FloatOps) (m : TokModel)
    (input : String) (maxT : ℕ) (draws : List ((ℕ → ℚ) × ℚ × ℕ)) :
    (runStream ops m (startStreamingInference m input maxT) draws).tokens_generated
        ≤ maxT ∧
    (runStream ops m (startStreamingInference m input maxT) draws).generated_tokens.length
        ≤ maxT ∧
    (∀ (c : StreamCtx) (frand : ℕ → ℚ) (rv : ℚ) (rfall : ℕ),
       c.is_streaming = false ∨ c.max_tokens ≤ c.tokens_generated →
       generateNextStreamingToken ops frand m rv rfall c = ("", c)) ∧
    (∀ c : StreamCtx, c.tokens_generated = c.max_tokens →
       isStreamingComplete c = true) ∧
    (∀ (c : StreamCtx) (frand : ℕ → ℚ) (rv : ℚ) (rfall : ℕ),
       c.is_streaming = true → c.tokens_generated < c.max_tokens →
       sampleForContext ops frand m rv rfall c = 3 →
       isStreamingComplete (generateNextStreamingToken ops frand m rv rfall c).2
         = true) := by
  have hinv := runStream_inv ops m maxT draws (startStreamingInference m input maxT)
    (by simp [startStreamingInference]) (by simp [startStreamingInference])
    (by simp [startStreamingInference])
  refine ⟨hinv.1, hinv.2, ?_, ?_, ?_⟩
  · intro c frand rv rfall h
    exact genNext_noop ops frand m rv rfall c h
  · intro c h
    simp [isStreamingComplete, h]
  · intro c frand rv rfall hs hlt h3
    unfold generateNextStreamingToken
    rw [if_neg (by rw [hs]; push_neg; exact ⟨by simp, hlt⟩)]
    simp only [isStreamingComplete, h3]
    simp

/-- The idle context used by the C4 witness. -/
def cIdleW : StreamCtx :=
  { is_streaming := false, max_tokens := 5, tokens_generated := 0
    input_tokens := [], generated_tokens := [], full_context_tokens := [2] }

/-- A streaming context whose budget is exhausted, for the C4 witness. -/
def cDoneW : StreamCtx :=
  { is_streaming := true, max_tokens := 3, tokens_generated := 3
    input_tokens := [2], generated_tokens := [7, 8, 9]
    full_context_tokens := [2, 7, 8, 9] }

/-- Witness for C4 at concrete inputs. -/
theorem claim_C4_witness :
    (runStream opsW mW (startStreamingInference mW "hi" 5)
        [(fun _ => 0, 0, 0)]).tokens_generated ≤ 5 ∧
    generateNextStreamingToken opsW (fun _ => 0) mW 0 0 cIdleW = ("", cIdleW) ∧
    isStreamingComplete cDoneW = true :=
  ⟨(claim_C4_streaming_bounds opsW mW "hi" 5 [(fun _ => 0, 0, 0)]).1,
   (claim_C4_streaming_bounds opsW mW "hi" 5 [(fun _ => 0, 0, 0)]).2.2.1
     cIdleW (fun _ => 0) 0 0 (Or.inl rfl),
   (claim_C4_streaming_bounds opsW mW "hi" 5 [(fun _ => 0, 0, 0)]).2.2.2.1
     cDoneW rfl⟩

theorem probPairsAux_fst (l : List ℚ) :
    ∀ (i : ℕ) (p : ℚ × ℕ), p ∈ probPairsAux l i → p.1 ∈ l := by
  induction l with
  | nil => intro i p hp; simp [probPairsAux] at hp
  | cons a t ih =>
    intro i p hp
    rw [probPairsAux] at hp
    rcases List.mem_cons.mp hp with h | h
    · rw [h]; exact List.mem_cons_self a t
    · exact List.mem_cons_of_mem a (ih (i + 1) p h)

theorem insertDesc_subset (a : ℚ × ℕ) :
    ∀ (l : List (ℚ × ℕ)) (p : ℚ × ℕ), p ∈ insertDesc a l → p = a ∨ p ∈ l := by
  intro l
  induction l with
  | nil => intro p hp; rw [insertDesc] at hp; simpa using hp
  | cons b t ih =>
    intro p hp
    rw [insertDesc] at hp
    by_cases hc : pairGe a b
    · rw [if_pos hc] at hp
      rcases List.mem_cons.mp hp with h | h
      · exact Or.inl h
      · exact Or.inr h
    · rw [if_neg hc] at hp
      rcases List.mem_cons.mp hp with h | h
      · exact Or.inr (by rw [h]; exact List.mem_cons_self b t)
      · rcases ih p h with h2 | h2
        · exact Or.inl h2
        · exact Or.inr (List.mem_cons_of_mem b h2)

theorem sortDesc_subset (l : List (ℚ × ℕ)) :
    ∀ p ∈ sortDesc l, p ∈ l := by
  induction l with
  | nil => intro p hp; simpa [sortDesc] using hp
  | cons a t ih =>
    intro p hp
    simp only [sortDesc, List.foldr_cons] at hp
    rcases insertDesc_subset a (sortDesc t) p hp with h | h
    · rw [h]; exact List.mem_cons_self a t
    · exact List.mem_cons_of_mem a (ih p h)

theorem roulette_oversum (rv : ℚ) :
    ∀ (l : List (ℚ × ℕ)) (k : ℕ) (cum : ℚ),
      (∀ p ∈ l, 0 ≤ p.1) →
      cum + ((l.take k).map (fun p => p.1)).sum < rv →
      rouletteLoop rv l cum k = 0 := by
  intro l
  induction l with
  | nil => intro k cum _ _; rfl
  | cons a t ih =>
    intro k cum hnn hover
    match k with
    | 0 => rfl
    | k + 1 =>
      obtain ⟨p, idx⟩ := a
      show (if rv ≤ cum + p then idx else rouletteLoop rv t (cum + p) k) = 0
      have hsum : 0 ≤ ((t.take k).map (fun q => q.1)).sum := by
        apply List.sum_nonneg
        intro x hx
        obtain ⟨q, hq, hqe⟩ := List.mem_map.mp hx
        rw [← hqe]
        exact hnn q (List.mem_cons_of_mem _ (List.take_subset k t hq))
      have hexp : (((p, idx) :: t).take (k + 1)).map (fun q => q.1)
          = p :: (t.take k).map (fun q => q.1) := by
        rw [List.take_succ_cons, List.map_cons]
      rw [hexp, List.sum_cons] at hover
      have hlt : cum + p < rv := by linarith
      rw [if_neg (not_le.mpr hlt)]
      exact ih k (cum + p)
        (fun q hq => hnn q (List.mem_cons_of_mem _ hq)) (by linarith)

theorem sampleTopK_oversum (probs : List ℚ) (rv : ℚ)
    (hnn : ∀ p ∈ probs, 0 ≤ p) (hover : topKMass probs < rv) :
    sampleTopK probs rv = 0 := by
  unfold sampleTopK
  apply roulette_oversum
  · intro p hp
    exact hnn p.1 (probPairsAux_fst probs 0 p (sortDesc_subset _ p hp))
  · rw [zero_add]
    simpa [topKMass] using hover

/-- **C10**: in `nextToken`'s top-K roulette sampling, when the logits are
non-empty and the uniform draw exceeds the cumulative probability mass of
the top-K candidates, the selection loop finishes without picking anyone
and the sampled token is `best_token`'s initialization value `0` (the
reserved pad id); no resampling or error occurs, and `0` is appended to
both the running context and the generated list. -/
theorem claim_C10_roulette_default (ops : FloatOps) (frand : ℕ → ℚ)
    (m : TokModel) (rv : ℚ) (rfall : ℕ) (c : StreamCtx)
    (hs : c.is_streaming = true)
    (hlt : c.tokens_generated < c.max_tokens)
    (hne : forwardPass ops frand c.full_context_tokens m ≠ [])
    (hnn : ∀ p ∈ softmaxProbs ops
        ((forwardPass ops frand c.full_context_tokens m).map
          (fun v => v / (4 / 5 : ℚ))), 0 ≤ p)
    (hover : topKMass (softmaxProbs ops
        ((forwardPass ops frand c.full_context_tokens m).map
          (fun v => v / (4 / 5 : ℚ)))) < rv) :
    sampleForContext ops frand m rv rfall c = 0 ∧
    (generateNextStreamingToken ops frand m rv rfall c).2.full_context_tokens
        = c.full_context_tokens ++ [0] ∧
    (generateNextStreamingToken ops frand m rv rfall c).2.generated_tokens
        = c.generated_tokens ++ [0] ∧
    (generateNextStreamingToken ops frand m rv rfall c).2.tokens_generated
        = c.tokens_generated + 1 := by
  have hsamp : sampleForContext ops frand m rv rfall c = 0 := by
    unfold sampleForContext
    rw [if_pos (by simpa [List.length_eq_zero] using hne)]
    exact sampleTopK_oversum _ rv hnn hover
  have hcond : ¬(c.is_streaming = false ∨ c.max_tokens ≤ c.tokens_generated) := by
    rw [hs]; push_neg; exact ⟨by simp, by omega⟩
  refine ⟨hsamp, ?_, ?_, ?_⟩
  · unfold generateNextStreamingToken
    rw [if_neg hcond]
    show c.full_context_tokens ++ [sampleForContext ops frand m rv rfall c]
        = c.full_context_tokens ++ [0]
    rw [hsamp]
  · unfold generateNextStreamingToken
    rw [if_neg hcond]
    show c.generated_tokens ++ [sampleForContext ops frand m rv rfall c]
        = c.generated_tokens ++ [0]
    rw [hsamp]
  · unfold generateNextStreamingToken
    rw [if_neg hcond]

/-- The streaming context used by the C10 witness: as after
`startStreaming("hi", 5)` on the tiny model, running context `[2, 1]`. -/
def cW10 : StreamCtx :=
  { is_streaming := true, max_tokens := 5, tokens_generated := 0
    input_tokens := [2, 1], generated_tokens := [], full_context_tokens := [2, 1] }

-- Witness for C10 at concrete inputs: with trivial float primitives all
-- four probabilities are `1/4`, the top-K mass is `1`, and the draw `2`
-- overflows it, so token `0` is sampled and appended.
unseal Rat.add Rat.mul Rat.sub Rat.inv in
theorem claim_C10_witness :
    sampleForContext opsW (fun _ => 0) mW 2 0 cW10 = 0 ∧
    (generateNextStreamingToken opsW (fun _ => 0) mW 2 0 cW10).2.full_context_tokens
        = cW10.full_context_tokens ++ [0] ∧
    (generateNextStreamingToken opsW (fun _ => 0) mW 2 0 cW10).2.generated_tokens
        = cW10.generated_tokens ++ [0] ∧
    (generateNextStreamingToken opsW (fun _ => 0) mW 2 0 cW10).2.tokens_generated
        = cW10.tokens_generated + 1 :=
  claim_C10_roulette_default opsW (fun _ => 0) mW 2 0 cW10 (by decide) (by decide)
    (by decide) (by decide) (by decide)

theorem ctxUsage_trim_le (c : CtxRec) : ctxUsage (trimCtx c) ≤ ctxUsage c := by
  show c.work_buffer_size + 4 * c.input_len + 4 * 0 + 4 * 0 + 4 * c.gen_len
      + 4 * (if 1024 < c.full_len then 512 else c.full_len) ≤ ctxUsage c
  unfold ctxUsage
  by_cases h : 1024 < c.full_len
  · rw [if_pos h]; omega
  · rw [if_neg h]; omega

theorem ctxsMem_cleanup_le (l : List (ℤ × CtxRec)) :
    ctxsMem (cleanupCtxs l) ≤ ctxsMem l := by
  induction l with
  | nil => simp [cleanupCtxs, ctxsMem]
  | cons a t ih =>
    cases h : a.2.is_streaming with
    | false =>
      have : cleanupCtxs (a :: t) = cleanupCtxs t := by
        unfold cleanupCtxs
        rw [List.filter_cons_of_neg (by simp [h])]
      rw [this]
      refine le_trans ih ?_
      unfold ctxsMem
      simp only [List.map_cons, List.sum_cons]
      omega
    | true =>
      have : cleanupCtxs (a :: t) = (a.1, trimCtx a.2) :: cleanupCtxs t := by
        unfold cleanupCtxs
        rw [List.filter_cons_of_pos (by simp [h])]
        simp
      rw [this]
      unfold ctxsMem at ih ⊢
      simp only [List.map_cons, List.sum_cons]
      have := ctxUsage_trim_le a.2
      omega

theorem totalMem_cleanup_le (s : GlobalState) :
    getTotalMemoryUsage (forceMemoryCleanup s) ≤ getTotalMemoryUsage s := by
  unfold getTotalMemoryUsage forceMemoryCleanup
  have := ctxsMem_cleanup_le s.contexts
  simp only
  omega

theorem health_cleanup (s : GlobalState) (h : checkMemoryHealth s = true) :
    checkMemoryHealth (forceMemoryCleanup s) = true := by
  unfold checkMemoryHealth at h ⊢
  rw [Bool.and_eq_true] at h ⊢
  refine ⟨?_, h.2⟩
  have h1 := of_decide_eq_true h.1
  exact decide_eq_true (le_trans (totalMem_cleanup_le s) h1)

theorem recover_models_subset (s : GlobalState) :
    ∀ p ∈ (recoverFromMemoryError s).2.models, p ∈ s.models := by
  intro p hp
  simp only [recoverFromMemoryError] at hp
  split at hp
  · exact hp
  · exact List.mem_of_mem_filter hp

theorem recover_healthy (s : GlobalState) (h : checkMemoryHealth s = true) :
    recoverFromMemoryError s = (true, forceMemoryCleanup s) := by
  unfold recoverFromMemoryError
  rw [if_pos (health_cleanup s h)]

/-- **C1** (amended): `forceCleanup()` never evicts models; it erases every
idle context and shrinks the streaming ones, so afterwards
`isMemoryHealthy()` returns true provided every loaded model is intact and
the models' footprint plus the trimmed streaming contexts' footprint fits
under the 512 MB ceiling — in particular whenever the overage was
attributable to idle contexts.  (When models alone exceed the ceiling,
`forceCleanup()` does not restore health; model eviction only happens in
`recoverFromError()`.) -/
theorem claim_C1_force_cleanup (s : GlobalState)
    (hok : s.models.all (fun p => !p.2.loaded || p.2.ggml_ok) = true)
    (hmem : modelsMem s.models + ctxsMem (cleanupCtxs s.contexts)
        ≤ MAX_MEMORY_LIMIT) :
    (forceMemoryCleanup s).models = s.models ∧
    checkMemoryHealth (forceMemoryCleanup s) = true := by
  refine ⟨rfl, ?_⟩
  unfold checkMemoryHealth
  rw [Bool.and_eq_true]
  exact ⟨decide_eq_true hmem, hok⟩

/-- An idle context occupying 600 MB (for the C1 witness). -/
def ctxBigIdle : CtxRec :=
  { model_id := 1, is_streaming := false
    work_buffer_size := 600 * 1024 * 1024
    input_len := 0, emb_len := 0, logits_len := 0, gen_len := 0, full_len := 0 }

/-- One healthy model plus one over-sized idle context: usage is over the
ceiling before `forceCleanup()`, healthy after. -/
def sWC1 : GlobalState :=
  { models := [(1, m32)], contexts := [(5, ctxBigIdle)], next_id := 6 }

-- Witness for C1 (amended): over the ceiling beforehand, healthy after the
-- cleanup evicts the idle context.
theorem claim_C1_witness :
    MAX_MEMORY_LIMIT < getTotalMemoryUsage sWC1 ∧
    checkMemoryHealth sWC1 = false ∧
    checkMemoryHealth (forceMemoryCleanup sWC1) = true :=
  ⟨by decide, by decide, (claim_C1_force_cleanup sWC1 (by decide) (by decide)).2⟩

/-- Seventeen loaded, intact 32 MB models and no contexts: 544 MB total. -/
def s17 : GlobalState :=
  { models := (List.range 17).map (fun i => ((i : ℤ) + 1, m32))
    contexts := []
    next_id := 18 }

/-- Counterexample to **C1** as stated: the total tracked memory of `s17`
exceeds the 512 MB ceiling and a model other than the most recent one
exists to evict, yet `forceCleanup()` (which touches only contexts) leaves
the state unchanged and `isMemoryHealthy()` still returns false. -/
theorem claim_C1_counterexample :
    MAX_MEMORY_LIMIT < getTotalMemoryUsage s17 ∧
    (∃ p ∈ s17.models, p.1 ≠ maxModelId s17.models) ∧
    checkMemoryHealth s17 = false ∧
    forceMemoryCleanup s17 = s17 ∧
    checkMemoryHealth (forceMemoryCleanup s17) = false := by decide

theorem loadModel_healthy (s : GlobalState) (f : FileInput)
    (hh : checkMemoryHealth s = true) :
    loadModel f s = loadModelAux (true, s) f := by
  unfold loadModel
  rw [if_pos hh]

theorem loadModel_unhealthy (s : GlobalState) (f : FileInput)
    (hh : checkMemoryHealth s = false) :
    loadModel f s = loadModelAux (recoverFromMemoryError s) f := by
  unfold loadModel
  rw [if_neg (by simp [hh])]

theorem loadModelAux_unopen (s1 : GlobalState) :
    loadModelAux (true, s1) FileInput.unopenable = (0, s1) := rfl

theorem loadModelAux_openable (s1 : GlobalState) (size : ℕ)
    (parse : Option GgufData) :
    loadModelAux (true, s1) (FileInput.openable size parse) =
      (if size = 0 then (0, s1)
       else if MAX_MODEL_SIZE < size then (0, s1)
       else
         match parse with
         | some g => commitModel (loadReal g) s1
         | none => (0, (recoverFromMemoryError s1).2)) := rfl

theorem loadModelAux_recover_fail (s1 : GlobalState) (f : FileInput) :
    loadModelAux (false, s1) f = (0, s1) := rfl

/-- **C2** (amended): `loadModel` on an unopenable path or an unparsable
container always returns the failure handle `0` and never commits a (even
partial) entry: every model present after the call was present before it.
Moreover, when the memory-health check passes on entry the model registry
is exactly unchanged; when it fails, the recovery path may legitimately
*evict* models, so the registry can shrink (but never grow). -/
theorem claim_C2_load_failure (s : GlobalState) (f : FileInput)
    (hf : f = FileInput.unopenable ∨ ∃ size, f = FileInput.openable size none) :
    (loadModel f s).1 = 0 ∧
    (∀ p ∈ (loadModel f s).2.models, p ∈ s.models) ∧
    (checkMemoryHealth s = true → (loadModel f s).2.models = s.models) := by
  by_cases hh : checkMemoryHealth s = true
  · rw [loadModel_healthy s f hh]
    rcases hf with hf | ⟨size, hf⟩ <;> subst hf
    · rw [loadModelAux_unopen]
      exact ⟨rfl, fun p hp => hp, fun _ => rfl⟩
    · rw [loadModelAux_openable]
      by_cases h0 : size = 0
      · rw [if_pos h0]
        exact ⟨rfl, fun p hp => hp, fun _ => rfl⟩
      · rw [if_neg h0]
        by_cases h1 : MAX_MODEL_SIZE < size
        · rw [if_pos h1]
          exact ⟨rfl, fun p hp => hp, fun _ => rfl⟩
        · rw [if_neg h1]
          rw [recover_healthy s hh]
          exact ⟨rfl, fun p hp => hp, fun _ => rfl⟩
  · have hhf : checkMemoryHealth s = false := by
      cases hb : checkMemoryHealth s
      · rfl
      · exact absurd hb hh
    have hsub := recover_models_subset s
    have hsub2 : ∀ p ∈ (recoverFromMemoryError
        (recoverFromMemoryError s).2).2.models, p ∈ s.models :=
      fun p hp => hsub p (recover_models_subset (recoverFromMemoryError s).2 p hp)
    rw [loadModel_unhealthy s f hhf]
    cases hr : (recoverFromMemoryError s).1 with
    | false =>
      have hre : recoverFromMemoryError s
          = (false, (recoverFromMemoryError s).2) := by
        rw [← hr]
      rw [hre, loadModelAux_recover_fail]
      exact ⟨rfl, hsub, fun hcon => absurd hcon hh⟩
    | true =>
      have hre : recoverFromMemoryError s
          = (true, (recoverFromMemoryError s).2) := by
        rw [← hr]
      rw [hre]
      rcases hf with hf | ⟨size, hf⟩ <;> subst hf
      · rw [loadModelAux_unopen]
        exact ⟨rfl, hsub, fun hcon => absurd hcon hh⟩
      · rw [loadModelAux_openable]
        by_cases h0 : size = 0
        · rw [if_pos h0]
          exact ⟨rfl, hsub, fun hcon => absurd hcon hh⟩
        · rw [if_neg h0]
          by_cases h1 : MAX_MODEL_SIZE < size
          · rw [if_pos h1]
            exact ⟨rfl, hsub, fun hcon => absurd hcon hh⟩
          · rw [if_neg h1]
            exact ⟨rfl, hsub2, fun hcon => absurd hcon hh⟩

/-- A healthy one-model state. -/
def sOne : GlobalState := { models := [(1, m32)], contexts := [], next_id := 2 }

-- Witness for C2 (amended) at a concrete healthy state.
theorem claim_C2_witness :
    (loadModel FileInput.unopenable sOne).1 = 0 ∧
    (loadModel FileInput.unopenable sOne).2.models = sOne.models :=
  ⟨(claim_C2_load_failure sOne FileInput.unopenable (Or.inl rfl)).1,
   (claim_C2_load_failure sOne FileInput.unopenable (Or.inl rfl)).2.2 (by decide)⟩

/-- Counterexample to **C2** as stated: calling `loadModel` with an
unopenable path in the over-budget 17-model state returns `0` as claimed,
but the registry does *not* hold the same entries afterwards - the initial
health check fails, `recoverFromMemoryError` evicts all but the most recent
model, and only then does the call bail out.  16 of the 17 entries are
gone. -/
theorem claim_C2_counterexample :
    (loadModel FileInput.unopenable s17).1 = 0 ∧
    s17.models.length = 17 ∧
    (loadModel FileInput.unopenable s17).2.models.length = 1 := by decide

theorem loadTensorsLoop_mem (arena : ℕ) :
    ∀ (l : List TensorEntry) (acc : LoadAcc) (p : String × ℕ),
      p ∈ (loadTensorsLoop arena l acc).tensors →
      p ∈ acc.tensors ∨
        ∃ te ∈ l, te.name = p.1 ∧ p.2 = elemCount te.ttype te.size := by
  intro l
  induction l with
  | nil => intro acc p hp; exact Or.inl hp
  | cons te rest ih =>
    intro acc p hp
    rw [loadTensorsLoop] at hp
    by_cases h1 : 3 ≤ acc.count ∨ acc.aborted = true
    · rw [if_pos h1] at hp; exact Or.inl hp
    · rw [if_neg h1] at hp
      by_cases h2 : isEssential te.name = true
      · rw [if_pos h2] at hp
        by_cases h3 : acc.used + 4 * elemCount te.ttype te.size
            + TENSOR_OVERHEAD ≤ arena
        · rw [if_pos h3] at hp
          rcases ih _ p hp with hin | ⟨te2, hte2, hprop⟩
          · rcases List.mem_append.mp hin with h4 | h4
            · exact Or.inl h4
            · right
              refine ⟨te, List.mem_cons_self te rest, ?_, ?_⟩
              · rw [List.mem_singleton] at h4; rw [h4]
              · rw [List.mem_singleton] at h4; rw [h4]
          · exact Or.inr ⟨te2, List.mem_cons_of_mem te hte2, hprop⟩
        · rw [if_neg h3] at hp
          exact Or.inl hp
      · rw [if_neg h2] at hp
        rcases ih acc p hp with h | ⟨te2, hte2, hprop⟩
        · exact Or.inl h
        · exact Or.inr ⟨te2, List.mem_cons_of_mem te hte2, hprop⟩

theorem loadTensorsLoop_grow (arena : ℕ) :
    ∀ (l : List TensorEntry) (acc : LoadAcc),
      (loadTensorsLoop arena l acc).tensors = acc.tensors ∨
        TENSOR_OVERHEAD ≤ arena := by
  intro l
  induction l with
  | nil => intro acc; exact Or.inl rfl
  | cons te rest ih =>
    intro acc
    rw [loadTensorsLoop]
    by_cases h1 : 3 ≤ acc.count ∨ acc.aborted = true
    · rw [if_pos h1]; exact Or.inl rfl
    · rw [if_neg h1]
      by_cases h2 : isEssential te.name = true
      · rw [if_pos h2]
        by_cases h3 : acc.used + 4 * elemCount te.ttype te.size
            + TENSOR_OVERHEAD ≤ arena
        · rw [if_pos h3]
          right; omega
        · rw [if_neg h3]
          exact Or.inl rfl
      · rw [if_neg h2]
        exact ih acc

theorem addDemo_mem (arena : ℕ) (acc : LoadAcc) (name : String) (n : ℕ)
    (p : String × ℕ) (hp : p ∈ (addDemo arena acc name n).tensors) :
    p ∈ acc.tensors ∨ p = (name, n) := by
  unfold addDemo at hp
  by_cases h : acc.used + 4 * n + TENSOR_OVERHEAD ≤ arena
  · rw [if_pos h] at hp
    rcases List.mem_append.mp hp with h2 | h2
    · exact Or.inl h2
    · exact Or.inr (List.mem_singleton.mp h2)
  · rw [if_neg h] at hp
    exact Or.inl hp

theorem addDemo_grow (arena : ℕ) (acc : LoadAcc) (name : String) (n : ℕ) :
    (addDemo arena acc name n).tensors = acc.tensors ∨
      TENSOR_OVERHEAD ≤ arena := by
  unfold addDemo
  by_cases h : acc.used + 4 * n + TENSOR_OVERHEAD ≤ arena
  · rw [if_pos h]; right; omega
  · rw [if_neg h]; exact Or.inl rfl

theorem loadReal_tensors_mem (g : GgufData) (p : String × ℕ)
    (hp : p ∈ (loadReal g).tensors) :
    (∃ te ∈ g.tensorDir, te.name = p.1 ∧ p.2 = elemCount te.ttype te.size) ∨
    p = ("token_embd.weight", 64) ∨ p = ("output.weight", 32) := by
  have hloop : ∀ q ∈ (ldAcc0 g).tensors,
      ∃ te ∈ g.tensorDir, te.name = q.1 ∧ q.2 = elemCount te.ttype te.size := by
    intro q hq
    rcases loadTensorsLoop_mem (ldArena g) g.tensorDir ⟨[], [], 0, 0, false⟩ q hq
        with h3 | h3
    · exact absurd h3 (by simp)
    · exact h3
  have hp2 : p ∈ (ldAcc g).tensors := hp
  unfold ldAcc at hp2
  by_cases hc : (ldAcc0 g).count = 0
  · rw [if_pos hc] at hp2
    rcases addDemo_mem _ _ _ _ p hp2 with h1 | h1
    · rcases addDemo_mem _ _ _ _ p h1 with h2 | h2
      · exact Or.inl (hloop p h2)
      · exact Or.inr (Or.inl h2)
    · exact Or.inr (Or.inr h1)
  · rw [if_neg hc] at hp2
    exact Or.inl (hloop p hp2)

theorem loadReal_size_pos (g : GgufData)
    (h : ¬(loadReal g).tensors = []) : 0 < (loadReal g).size := by
  have h2 : ¬(ldAcc g).tensors = [] := h
  show 0 < ldArena g
  have hov : TENSOR_OVERHEAD ≤ ldArena g → 0 < ldArena g := by
    unfold TENSOR_OVERHEAD; omega
  have hloop : ¬(ldAcc0 g).tensors = [] → TENSOR_OVERHEAD ≤ ldArena g := by
    intro h3
    rcases loadTensorsLoop_grow (ldArena g) g.tensorDir ⟨[], [], 0, 0, false⟩
        with h4 | h4
    · exact absurd h4 (by simpa [ldAcc0] using h3)
    · exact h4
  unfold ldAcc at h2
  by_cases hc : (ldAcc0 g).count = 0
  · rw [if_pos hc] at h2
    rcases addDemo_grow (ldArena g) (addDemo (ldArena g) (ldAcc0 g)
        "token_embd.weight" 64) "output.weight" 32 with h1 | h1
    · rw [h1] at h2
      rcases addDemo_grow (ldArena g) (ldAcc0 g) "token_embd.weight" 64
          with h5 | h5
      · rw [h5] at h2
        exact hov (hloop h2)
      · exact hov h5
    · exact hov h1
  · rw [if_neg hc] at h2
    exact hov (hloop h2)

theorem loadModel_parse_commit (sz : ℕ) (g : GgufData) (s : GlobalState)
    (h : (loadModel (FileInput.openable sz (some g)) s).1 ≠ 0) :
    ∃ s1 : GlobalState,
      loadModel (FileInput.openable sz (some g)) s
        = commitModel (loadReal g) s1 := by
  by_cases hh : checkMemoryHealth s = true
  · have he := loadModel_healthy s (FileInput.openable sz (some g)) hh
    rw [he, loadModelAux_openable] at h ⊢
    by_cases h0 : sz = 0
    · rw [if_pos h0] at h; exact absurd rfl h
    · rw [if_neg h0] at h ⊢
      by_cases h1 : MAX_MODEL_SIZE < sz
      · rw [if_pos h1] at h; exact absurd rfl h
      · rw [if_neg h1] at h ⊢
        exact ⟨s, rfl⟩
  · have hhf : checkMemoryHealth s = false := by
      cases hb : checkMemoryHealth s
      · rfl
      · exact absurd hb hh
    have he := loadModel_unhealthy s (FileInput.openable sz (some g)) hhf
    rw [he] at h ⊢
    cases hr : (recoverFromMemoryError s).1 with
    | false =>
      have hre : recoverFromMemoryError s
          = (false, (recoverFromMemoryError s).2) := by rw [← hr]
      rw [hre, loadModelAux_recover_fail] at h
      exact absurd rfl h
    | true =>
      have hre : recoverFromMemoryError s
          = (true, (recoverFromMemoryError s).2) := by rw [← hr]
      rw [hre, loadModelAux_openable] at h ⊢
      by_cases h0 : sz = 0
      · rw [if_pos h0] at h; exact absurd rfl h
      · rw [if_neg h0] at h ⊢
        by_cases h1 : MAX_MODEL_SIZE < sz
        · rw [if_pos h1] at h; exact absurd rfl h
        · rw [if_neg h1] at h ⊢
          exact ⟨(recoverFromMemoryError s).2, rfl⟩

/-- **C3** (amended): every model committed by a successful `loadModel` has
`n_vocab` equal to the container's declared vocabulary size with default
`32000` when the key is absent (so `n_vocab > 0` holds whenever the
container does not explicitly declare a zero or the key is missing — a
container declaring `vocab_size = 0` is loaded as-is), and every decoded
tensor's element count follows the *mobile-capped* per-kind rule of
`loadTensorWithQuantization` (`F32 ↦ min(bytes/4, 256)`,
`F16 ↦ min(bytes/2, 512)`, `Q4_K/Q4_0/Q6_K ↦ min(128, bytes/8)`, any other
kind `↦ min(bytes, 1024)`), except for the two synthesized demo tensors of
fixed element counts 64 and 32. -/
theorem claim_C3_loaded_model_shape (sz : ℕ) (g : GgufData) (s : GlobalState)
    (h : (loadModel (FileInput.openable sz (some g)) s).1 ≠ 0) :
    ∃ m : ModelRec,
      ((loadModel (FileInput.openable sz (some g)) s).1, m)
          ∈ (loadModel (FileInput.openable sz (some g)) s).2.models ∧
      m.n_vocab = g.vocabSize.getD 32000 ∧
      (g.vocabSize = none → 0 < m.n_vocab) ∧
      ∀ p ∈ m.tensors,
        (∃ te ∈ g.tensorDir, te.name = p.1 ∧ p.2 = elemCount te.ttype te.size) ∨
        p = ("token_embd.weight", 64) ∨ p = ("output.weight", 32) := by
  obtain ⟨s1, hkey⟩ := loadModel_parse_commit sz g s h
  rw [hkey] at h ⊢
  unfold commitModel at h ⊢
  by_cases hemp : (loadReal g).tensors.isEmpty = true
  · rw [if_pos hemp] at h
    exact absurd rfl h
  · rw [if_neg hemp] at h ⊢
    refine ⟨loadReal g, ?_, rfl, ?_, loadReal_tensors_mem g⟩
    · show (s1.next_id, loadReal g)
          ∈ s1.models ++ [(s1.next_id, loadReal g)]
      exact List.mem_append_right _ (List.mem_singleton.mpr rfl)
    · intro hnone
      show 0 < (loadReal g).n_vocab
      unfold loadReal
      rw [hnone]
      simp

/-- The empty registry state. -/
def sEmpty : GlobalState := { models := [], contexts := [], next_id := 1 }

/-- A container declaring `vocab_size = 0` with a single 2048-byte F32
`token_embd.weight` tensor. -/
def gC3 : GgufData :=
  { vocabSize := some 0, embdLen := some 8, headCount := some 4
    blockCount := some 2, ctxLen := some 2048
    tensorDir := [{ name := "token_embd.weight", ttype := GgmlType.F32
                    size := 2048 }] }

/-- Counterexample to **C3** as stated: loading `gC3` from the empty state
succeeds (handle `1`), yet the committed model has `vocab_size = 0` (not
`> 0`), and its only tensor was decoded to `min(2048/4, 256) = 256`
elements, not the claimed full-precision rule `bytes/4 = 512`. -/
theorem claim_C3_counterexample :
    (loadModel (FileInput.openable 2048 (some gC3)) sEmpty).1 = 1 ∧
    ((loadModel (FileInput.openable 2048 (some gC3)) sEmpty).2.models.find?
        (fun p => p.1 == 1)).map (fun p => (p.2.n_vocab, p.2.tensors))
      = some (0, [("token_embd.weight", 256)]) ∧
    ¬(256 = 2048 / 4) := by decide

/-- `gC3` with the vocabulary-size key absent. -/
def gW3 : GgufData :=
  { vocabSize := none, embdLen := none, headCount := none
    blockCount := none, ctxLen := none
    tensorDir := [{ name := "token_embd.weight", ttype := GgmlType.F32
                    size := 2048 }] }

-- Witness for C3 (amended) at a concrete successful load.
theorem claim_C3_witness :
    ∃ m : ModelRec,
      ((loadModel (FileInput.openable 2048 (some gW3)) sEmpty).1, m)
          ∈ (loadModel (FileInput.openable 2048 (some gW3)) sEmpty).2.models ∧
      m.n_vocab = gW3.vocabSize.getD 32000 ∧
      (gW3.vocabSize = none → 0 < m.n_vocab) ∧
      ∀ p ∈ m.tensors,
        (∃ te ∈ gW3.tensorDir, te.name = p.1 ∧ p.2 = elemCount te.ttype te.size) ∨
        p = ("token_embd.weight", 64) ∨ p = ("output.weight", 32) :=
  claim_C3_loaded_model_shape 2048 gW3 sEmpty (by decide)

theorem totalMem_commit (m : ModelRec) (s1 : GlobalState)
    (hm : ¬m.tensors.isEmpty = true) :
    getTotalMemoryUsage (commitModel m s1).2 = getTotalMemoryUsage s1 + m.size := by
  unfold commitModel
  rw [if_neg hm]
  unfold getTotalMemoryUsage modelsMem ctxsMem
  simp only [List.map_append, List.sum_append, List.map_cons, List.sum_cons,
    List.map_nil, List.sum_nil]
  omega

theorem modelsMem_filter_le (l : List (ℤ × ModelRec)) (h : ℤ) :
    modelsMem (l.filter (fun p => !(p.1 == h))) ≤ modelsMem l := by
  induction l with
  | nil => simp [modelsMem]
  | cons a t ih =>
    by_cases ha : a.1 = h
    · rw [List.filter_cons_of_neg (by simp [ha])]
      unfold modelsMem at ih ⊢
      simp only [List.map_cons, List.sum_cons]
      omega
    · rw [List.filter_cons_of_pos (by simp [ha])]
      unfold modelsMem at ih ⊢
      simp only [List.map_cons, List.sum_cons]
      omega

theorem modelsMem_erase_lt (h : ℤ) (m : ModelRec) (hpos : 0 < m.size) :
    ∀ l : List (ℤ × ModelRec), (h, m) ∈ l →
      modelsMem (l.filter (fun p => !(p.1 == h))) < modelsMem l := by
  intro l
  induction l with
  | nil => intro hm; simp at hm
  | cons a t ih =>
    intro hm
    rcases List.mem_cons.mp hm with he | ht
    · rw [List.filter_cons_of_neg (by rw [← he]; simp)]
      have hle := modelsMem_filter_le t h
      unfold modelsMem at hle ⊢
      simp only [List.map_cons, List.sum_cons]
      rw [← he]
      have hms : (h, m).2.size = m.size := rfl
      omega
    · by_cases ha : a.1 = h
      · rw [List.filter_cons_of_neg (by simp [ha])]
        have hlt := ih ht
        unfold modelsMem at hlt ⊢
        simp only [List.map_cons, List.sum_cons]
        omega
      · rw [List.filter_cons_of_pos (by simp [ha])]
        have hlt := ih ht
        unfold modelsMem at hlt ⊢
        simp only [List.map_cons, List.sum_cons]
        omega

/-- **C5** (amended): when the memory-health check passes on entry (so no
recovery eviction can run inside the call), `getMemoryUsage()` strictly
increases across every successful `loadModel`, and it strictly decreases
across a successful `freeModel` of an unreferenced model with a positive
footprint (every model committed by `loadModel` has one).  When the entry
health check fails, `loadModel`'s recovery path may evict other models
first, and the total can then *decrease* across a successful load. -/
theorem claim_C5_memory_monotonicity :
    (∀ (f : FileInput) (s : GlobalState), checkMemoryHealth s = true →
       (loadModel f s).1 ≠ 0 → getTotalMemoryUsage s < getTotalMemoryUsage (loadModel f s).2) ∧
    (∀ (h : ℤ) (s : GlobalState) (m : ModelRec), (h, m) ∈ s.models →
       0 < m.size → (∀ p ∈ s.contexts, ¬p.2.model_id = h) →
       getTotalMemoryUsage (freeModel h s) < getTotalMemoryUsage s) := by
  constructor
  · intro f s hh hnz
    rw [loadModel_healthy s f hh] at hnz ⊢
    match f with
    | FileInput.unopenable =>
      rw [loadModelAux_unopen] at hnz
      exact absurd rfl hnz
    | FileInput.openable size parse =>
      rw [loadModelAux_openable] at hnz ⊢
      by_cases h0 : size = 0
      · rw [if_pos h0] at hnz; exact absurd rfl hnz
      · rw [if_neg h0] at hnz ⊢
        by_cases h1 : MAX_MODEL_SIZE < size
        · rw [if_pos h1] at hnz; exact absurd rfl hnz
        · rw [if_neg h1] at hnz ⊢
          match parse with
          | none => exact absurd rfl hnz
          | some g =>
            by_cases hemp : (loadReal g).tensors.isEmpty = true
            · have hz : (commitModel (loadReal g) s).1 = 0 := by
                unfold commitModel; rw [if_pos hemp]
              exact absurd hz hnz
            · show getTotalMemoryUsage s < getTotalMemoryUsage (commitModel (loadReal g) s).2
              have hpos := loadReal_size_pos g (by simpa using hemp)
              rw [totalMem_commit _ _ hemp]
              omega
  · intro h s m hm hpos hctx
    have hany : s.models.any (fun p => p.1 == h) = true :=
      List.any_eq_true.mpr ⟨(h, m), hm, by simp⟩
    have hcf : s.contexts.any (fun p => p.2.model_id == h) = false := by
      cases hb : s.contexts.any (fun p => p.2.model_id == h)
      · rfl
      · exfalso
        obtain ⟨p, hpmem, hpp⟩ := List.any_eq_true.mp hb
        exact hctx p hpmem (by simpa using hpp)
    unfold freeModel
    rw [if_pos hany, if_neg (by simp [hcf])]
    have hlt := modelsMem_erase_lt h m hpos s.models hm
    unfold getTotalMemoryUsage
    simp only
    omega

-- Witness for C5 (amended): a load into the empty state and the free of an
-- unreferenced model, at concrete inputs.
theorem claim_C5_witness :
    getTotalMemoryUsage sEmpty
      < getTotalMemoryUsage (loadModel (FileInput.openable 2048 (some gW3)) sEmpty).2 ∧
    getTotalMemoryUsage (freeModel 1 sOne) < getTotalMemoryUsage sOne :=
  ⟨claim_C5_memory_monotonicity.1 (FileInput.openable 2048 (some gW3)) sEmpty
     (by decide) (by decide),
   claim_C5_memory_monotonicity.2 1 sOne m32 (by decide) (by decide)
     (by decide)⟩

/-- Counterexample to **C5** as stated: in the over-budget 17-model state,
`loadModel` of a parsable container *succeeds* (handle 18), yet
`getMemoryUsage()` strictly *decreases* across the call, because the entry
health check fails and `recoverFromMemoryError` evicts 16 models before
the new one is committed. -/
theorem claim_C5_counterexample :
    (loadModel (FileInput.openable 2048 (some gW3)) s17).1 ≠ 0 ∧
    getTotalMemoryUsage (loadModel (FileInput.openable 2048 (some gW3)) s17).2
      < getTotalMemoryUsage s17 := by decide

theorem runLayersOpt_eq (ops : FloatOps) (m : TokModel) (seq : ℕ)
    (hh : 0 < m.n_head) :
    ∀ (n : ℕ) (x : List ℚ),
      runLayersOpt ops m seq n x = some (runLayers ops m seq n x) := by
  intro n
  induction n with
  | zero => intro x; rfl
  | succ n ih =>
    intro x
    have hstep : layerStepOpt ops m seq x = some (layerStep ops m seq x) := by
      unfold layerStepOpt computeAttentionOpt layerStep
      rw [if_neg (by omega)]
      rfl
    rw [runLayersOpt, hstep]
    exact ih (layerStep ops m seq x)

/-- **C9** (amended): for every non-empty token sequence and every model
whose forward pass avoids the head-count division by zero — `n_layer = 0`
(no `computeAttention` call) or `n_head > 0` — the forward pass returns a
logits vector of length exactly `n_vocab`, and the model state after the
call is identical to the state before it (the source never writes through
`model`).  A loadable model with `n_head = 0` and at least one layer
instead hits `int d_head = d_model / n_heads` (a division by zero, UB) in
the first `computeAttention` call and returns nothing. -/
theorem claim_C9_forward_shape (ops : FloatOps) (frand : ℕ → ℚ)
    (tokens : List ℕ) (m : TokModel) (hne : tokens ≠ [])
    (hdef : m.n_layer = 0 ∨ 0 < m.n_head) :
    ∃ r : List ℚ × TokModel,
      forwardPassMOpt ops frand tokens m = some r ∧
      r.1.length = m.n_vocab ∧ r.2 = m := by
  have hrun : runLayersOpt ops m tokens.length m.n_layer (embedVals ops m tokens)
      = some (runLayers ops m tokens.length m.n_layer (embedVals ops m tokens)) := by
    rcases hdef with h0 | hh
    · rw [h0]; rfl
    · exact runLayersOpt_eq ops m tokens.length hh m.n_layer _
  refine ⟨(projLogits ops frand m
      (runLayers ops m tokens.length m.n_layer (embedVals ops m tokens))
      tokens.length, m), ?_, ?_, rfl⟩
  · unfold forwardPassMOpt
    rw [hrun]
  · simp [projLogits]

/-- Witness for C9 (amended) at a concrete input (`n_layer = 0`). -/
theorem claim_C9_witness :
    ∃ r : List ℚ × TokModel,
      forwardPassMOpt opsW (fun _ => 0) [2] mW = some r ∧
      r.1.length = mW.n_vocab ∧ r.2 = mW :=
  claim_C9_forward_shape opsW (fun _ => 0) [2] mW (by decide) (Or.inl rfl)

/-- A container declaring `llama.attention.head_count = 0` and leaving
`llama.block_count` absent (so `n_layer` defaults to 22). -/
def gC9 : GgufData :=
  { vocabSize := some 4, embdLen := some 2, headCount := some 0
    blockCount := none, ctxLen := some 2048
    tensorDir := [{ name := "token_embd.weight", ttype := GgmlType.F32
                    size := 2048 }] }

/-- The tokenizer-side view of the model `gC9` loads into: `n_head = 0`,
`n_layer = 22`. -/
def mC9 : TokModel :=
  { n_vocab := 4, n_embd := 2, n_head := 0, n_layer := 22, n_ctx := 2048
    tensors := [("token_embd.weight", 256)]
    token_to_id := [("<pad>", 0), ("<unk>", 1), ("<s>", 2), ("</s>", 3)]
    id_to_token := [(0, "<pad>"), (1, "<unk>"), (2, "<s>"), (3, "</s>")] }

/-- Counterexample to **C9** as stated: the container `gC9` loads
successfully (nonzero handle; validation only requires a non-empty tensor
map), committing a model with `n_head = 0` and the default `n_layer = 22`;
on the non-empty token sequence `[2, 1]` the forward pass over that model
does not return a logits vector at all — the first `computeAttention` call
evaluates `d_model / n_heads` with `n_heads = 0` (division by zero,
llama_bridge_phase3_real.cpp line 397), a crash the embedding records as
`none`. -/
theorem claim_C9_counterexample :
    (loadModel (FileInput.openable 2048 (some gC9)) sEmpty).1 ≠ 0 ∧
    ((loadModel (FileInput.openable 2048 (some gC9)) sEmpty).2.models.find?
        (fun p => p.1 == 1)).map (fun p => (p.2.n_head, p.2.n_layer))
      = some (0, 22) ∧
    ([2, 1] : List ℕ) ≠ [] ∧
    mC9.n_head = 0 ∧ mC9.n_layer = 22 ∧
    forwardPassMOpt opsW (fun _ => 0) [2, 1] mC9 = none := by decide
